import Mathlib

/-!
Shallow embedding of the Vaultix wallet-authentication backend
(`src/backend/src/modules/auth` and `src/backend/src/modules/user`).

The persistence layer (TypeORM repositories) is modelled as an explicit
state value `DB` holding the two tables; every service method that touches
the store takes the `DB` and returns the (possibly unchanged) `DB` next to
its `Except` result, so that state changes on failing paths stay visible.
Randomness (`crypto.randomBytes`) and the clock (`new Date`) are passed in
as explicit arguments.  JWT signing/verification (`@nestjs/jwt` backed by
`jsonwebtoken`) is modelled structurally: a signed token records its
payload, issued-at, optional expiry claim and the secret it was signed
with; verification succeeds exactly when the secrets agree and the expiry
claim, when present, lies in the future.  Stellar signature verification
(`StellarSdk.Keypair.fromPublicKey` / `verify`) is an external
cryptographic primitive and is abstracted as a function from
(publicKey, message, signatureHex) to `Option Bool`: `none` models the
try-block throwing (malformed key, bad-size signature), `some b` models a
normal return of `b`.
-/

namespace Vaultix

/-- Errors thrown by the service layer.  `unauthorized` models
`UnauthorizedException` (HTTP 401); `internal` models a plain thrown
`Error` (HTTP 500). -/
inductive Err where
  | unauthorized (msg : String)
  | internal (msg : String)
deriving DecidableEq, Repr

/-- A row of the `users` table (`user.entity.ts` is not in the snapshot;
the columns are the ones read and written by the services, matching the
spec's data model: id, unique wallet address, optional nonce, active
flag).  The `createdAt` audit column is carried for completeness. -/
structure User where
  id : String
  walletAddress : String
  nonce : Option String
  isActive : Bool
  createdAt : Nat
deriving DecidableEq, Repr

/-- A row of the `refresh_tokens` table (`refresh-token.entity.ts`).
`expiresAt` and `createdAt` are clock values in milliseconds.  The uuid
primary key is omitted: no service logic reads it. -/
structure RefreshToken where
  token : String
  userId : String
  expiresAt : Nat
  isActive : Bool
  createdAt : Nat
deriving DecidableEq, Repr

/-- The store: both tables, in table-scan order. -/
structure DB where
  users : List User
  refreshTokens : List RefreshToken
deriving DecidableEq, Repr

/-- A partial update of a `User` row, as passed to `userRepository.update`.
The outer `Option` records whether the `nonce` field occurs in the patch
object; `some none` is `\x7b nonce: undefined \x7d`, clearing the column. -/
structure UserPatch where
  nonce : Option (Option String) := none
deriving DecidableEq, Repr

/-- Apply a patch to one row. -/
def applyPatch (p : UserPatch) (u : User) : User :=
  { u with nonce := p.nonce.getD u.nonce }

namespace UserService

/-- `findByWalletAddress`: `findOne(\x7b where: \x7b walletAddress \x7d \x7d)`. -/
def findByWalletAddress (db : DB) (walletAddress : String) : Option User :=
  db.users.find? (fun u => u.walletAddress == walletAddress)

/-- `findById`: `findOne(\x7b where: \x7b id, isActive: true \x7d \x7d)` —
note the `isActive: true` filter. -/
def findById (db : DB) (id : String) : Option User :=
  db.users.find? (fun u => u.id == id && u.isActive)

/-- `create`: build and save a fresh row (appended at the end of the
table).  `isActive` defaults to `true`; the id and creation timestamp are
store-generated and passed in explicitly. -/
def create (db : DB) (u : User) : User × DB :=
  (u, { db with users := db.users ++ [u] })

/-- `update`: `userRepository.update(id, userData)` patches every row
whose id matches, then re-reads through `findById` and throws a plain
`Error('User not found')` when that lookup fails (e.g. the row is
inactive, since `findById` filters on `isActive: true`). -/
def update (db : DB) (id : String) (p : UserPatch) : Except Err User × DB :=
  let db1 : DB :=
    { db with users := db.users.map (fun u => if u.id == id then applyPatch p u else u) }
  match findById db1 id with
  | none => (Except.error (Err.internal "User not found"), db1)
  | some u => (Except.ok u, db1)

/-- `createRefreshToken`: build and save a fresh row (appended at the end
of the table); `isActive` defaults to `true`. -/
def createRefreshToken (db : DB) (r : RefreshToken) : RefreshToken × DB :=
  (r, { db with refreshTokens := db.refreshTokens ++ [r] })

/-- `findRefreshToken`: `findOne(\x7b where: \x7b token, isActive: true \x7d,
relations: ['user'] \x7d)`.  The row lookup; the `user` relation is joined
separately by `joinedUser`. -/
def findRefreshToken (db : DB) (token : String) : Option RefreshToken :=
  db.refreshTokens.find? (fun r => r.token == token && r.isActive)

/-- The `relations: ['user']` join of `findRefreshToken`: resolve the
`ManyToOne` user of a refresh-token row by its `userId` foreign key (no
`isActive` filter on this lookup). -/
def joinedUser (db : DB) (r : RefreshToken) : Option User :=
  db.users.find? (fun u => u.id == r.userId)

/-- `invalidateRefreshToken`: `update(\x7b token \x7d, \x7b isActive: false \x7d)` —
sets `isActive` to false on every row with that token value; updating
zero rows is not an error. -/
def invalidateRefreshToken (db : DB) (token : String) : DB :=
  { db with refreshTokens :=
      db.refreshTokens.map (fun r => if r.token == token then { r with isActive := false } else r) }

end UserService

/-- Configuration of the Nest `JwtModule`: the signing secret and the
optional default `expiresIn` (in seconds), as `signOptions` would set it. -/
structure JwtConfig where
  secret : String
  expiresInSec : Option Nat
deriving DecidableEq, Repr

/-- The `JwtModule.registerAsync` factory in `auth.module.ts`: only the
secret is configured (`process.env.JWT_SECRET` with a fallback); no
`signOptions` and hence no default `expiresIn`. -/
def authModuleJwtConfig (envSecret : Option String) : JwtConfig :=
  { secret := envSecret.getD "your-secret-key-change-in-production"
    expiresInSec := none }

/-- The claim set built by `generateAccessToken`. -/
structure JwtPayload where
  sub : String
  walletAddress : String
  type : String
deriving DecidableEq, Repr

/-- A signed JWT, modelled structurally: the registered claims added at
signing time (`iat`, and `exp` only when an `expiresIn` option is
configured) and the secret the signature binds it to. -/
structure Jwt where
  payload : JwtPayload
  iat : Nat
  exp : Option Nat
  secret : String
deriving DecidableEq, Repr

/-- A bearer-token string as presented by a client: either a well-formed
JWT or an unparseable string. -/
inductive TokenWire where
  | jwt (j : Jwt)
  | malformed (s : String)
deriving DecidableEq, Repr

/-- `jwtService.sign(payload)`: attaches `iat := now` and an `exp` claim
only when the module configuration carries an `expiresIn`. -/
def jwtSign (cfg : JwtConfig) (now : Nat) (p : JwtPayload) : Jwt :=
  { payload := p
    iat := now
    exp := cfg.expiresInSec.map (fun d => now + d)
    secret := cfg.secret }

/-- Failure modes of `jwtService.verify` (all thrown as exceptions by
`jsonwebtoken`; the service code treats them uniformly via `catch`). -/
inductive JwtError where
  | badSignature
  | expired
  | unparseable
deriving DecidableEq, Repr

/-- `jwtService.verify(token, \x7b secret \x7d)`: rejects an unparseable
string, a wrong-secret signature, and — when an `exp` claim is present —
a token with `exp ≤ now`; a token with no `exp` claim is never expired. -/
def jwtVerify (cfg : JwtConfig) (now : Nat) (t : TokenWire) : Except JwtError JwtPayload :=
  match t with
  | TokenWire.malformed _ => Except.error JwtError.unparseable
  | TokenWire.jwt j =>
      if j.secret ≠ cfg.secret then Except.error JwtError.badSignature
      else match j.exp with
        | some e => if e ≤ now then Except.error JwtError.expired else Except.ok j.payload
        | none => Except.ok j.payload

/-- The Stellar signature primitive, abstracted.  `verifyResult pk msg sig`
is `none` when `Keypair.fromPublicKey(pk)` or `verify` throws, and
`some b` when verification returns `b`. -/
structure Crypto where
  verifyResult : (publicKey : String) → (message : String) → (signatureHex : String) → Option Bool

/-- The fixed challenge-message template of `auth.service.ts`. -/
def challengeMessage (nonce : String) : String :=
  "Sign this message to authenticate with Vaultix: " ++ nonce

/-- The value attached to the request by the guard on success. -/
structure ValidatedUser where
  userId : String
  walletAddress : String
deriving DecidableEq, Repr

namespace AuthService

/-- `generateChallenge(walletAddress)`: draw a nonce (passed in, modelling
`crypto.randomBytes(16).toString('hex')`), build the message, then upsert
the user: create on first sight, otherwise `update(user.id, \x7b nonce \x7d)`. -/
def generateChallenge (nonce freshUserId : String) (now : Nat) (db : DB)
    (walletAddress : String) : Except Err (String × String) × DB :=
  let message := challengeMessage nonce
  match UserService.findByWalletAddress db walletAddress with
  | none =>
      let (_, db1) := UserService.create db
        { id := freshUserId, walletAddress := walletAddress, nonce := some nonce
          isActive := true, createdAt := now }
      (Except.ok (nonce, message), db1)
  | some user =>
      match UserService.update db user.id { nonce := some (some nonce) } with
      | (Except.error e, db1) => (Except.error e, db1)
      | (Except.ok _, db1) => (Except.ok (nonce, message), db1)

/-- `generateAccessToken(userId, walletAddress)`: sign
`\x7b sub, walletAddress, type: 'access' \x7d` with the module's JWT
configuration (which sets no expiry). -/
def generateAccessToken (cfg : JwtConfig) (now : Nat) (userId walletAddress : String) : Jwt :=
  jwtSign cfg now { sub := userId, walletAddress := walletAddress, type := "access" }

/-- Seven days in milliseconds: the `expiresAt.setDate(getDate() + 7)`
offset of `generateRefreshToken`. -/
def sevenDaysMs : Nat := 7 * 24 * 60 * 60 * 1000

/-- `generateRefreshToken(userId)`: draw an opaque token (passed in,
modelling `crypto.randomBytes(32).toString('hex')`), persist it with
expiry `now + 7 days` and `isActive` defaulted to true, return it. -/
def generateRefreshToken (now : Nat) (freshToken : String) (db : DB)
    (userId : String) : RefreshToken × DB :=
  UserService.createRefreshToken db
    { token := freshToken, userId := userId, expiresAt := now + sevenDaysMs
      isActive := true, createdAt := now }

/-- `verifySignature(walletAddress, signature, publicKey)`, step for step:
missing user or falsy nonce → 401; the try-block around Stellar
verification collapses a `false` result and any thrown error into the
same 401; then the `publicKey !== walletAddress` identity check → 401;
then clear the nonce via `update(user.id, \x7b nonce: undefined \x7d)`
(which can itself throw) and mint both tokens. -/
def verifySignature (c : Crypto) (cfg : JwtConfig) (now : Nat) (freshToken : String)
    (db : DB) (walletAddress signature publicKey : String) :
    Except Err (Jwt × String) × DB :=
  match UserService.findByWalletAddress db walletAddress with
  | none => (Except.error (Err.unauthorized "Invalid challenge. Please request a new one."), db)
  | some user =>
      match user.nonce with
      | none => (Except.error (Err.unauthorized "Invalid challenge. Please request a new one."), db)
      | some n =>
          if n == "" then
            (Except.error (Err.unauthorized "Invalid challenge. Please request a new one."), db)
          else
            match c.verifyResult publicKey (challengeMessage n) signature with
            | some true =>
                if publicKey ≠ walletAddress then
                  (Except.error (Err.unauthorized "Public key does not match wallet address"), db)
                else
                  match UserService.update db user.id { nonce := some none } with
                  | (Except.error e, db1) => (Except.error e, db1)
                  | (Except.ok _, db1) =>
                      let accessToken := generateAccessToken cfg now user.id walletAddress
                      let (rt, db2) := generateRefreshToken now freshToken db1 user.id
                      (Except.ok (accessToken, rt.token), db2)
            | _ => (Except.error (Err.unauthorized "Signature verification failed"), db)

/-- `refreshAccessToken(refreshToken)`: look the token up (active rows
only, with the user relation joined), reject unknown or
strictly-before-now expiry, invalidate, then mint a new pair for the
joined user.  A missing joined user would be a `TypeError` at
`token.user.id`, modelled as an internal error after the invalidation. -/
def refreshAccessToken (cfg : JwtConfig) (now : Nat) (freshToken : String)
    (db : DB) (refreshToken : String) : Except Err (Jwt × String) × DB :=
  match UserService.findRefreshToken db refreshToken with
  | none => (Except.error (Err.unauthorized "Invalid or expired refresh token"), db)
  | some tok =>
      if tok.expiresAt < now then
        (Except.error (Err.unauthorized "Invalid or expired refresh token"), db)
      else
        let db1 := UserService.invalidateRefreshToken db refreshToken
        match UserService.joinedUser db tok with
        | none => (Except.error (Err.internal "TypeError: token.user is not defined"), db1)
        | some owner =>
            let newAccessToken := generateAccessToken cfg now owner.id owner.walletAddress
            let (newRt, db2) := generateRefreshToken now freshToken db1 owner.id
            (Except.ok (newAccessToken, newRt.token), db2)

/-- `logout(refreshToken)`: unconditionally delegate to
`invalidateRefreshToken`; never fails. -/
def logout (db : DB) (refreshToken : String) : Except Err Unit × DB :=
  (Except.ok (), UserService.invalidateRefreshToken db refreshToken)

/-- `getCurrentUser(userId)`: `findById` (which filters on
`isActive: true`), 401 when nothing comes back. -/
def getCurrentUser (db : DB) (userId : String) : Except Err User :=
  match UserService.findById db userId with
  | none => Except.error (Err.unauthorized "User not found")
  | some u => Except.ok u

/-- The body of `validateToken`'s try-block: `jwtService.verify` plus the
`payload.type !== 'access'` check, whose `UnauthorizedException('Invalid
token type')` is thrown from inside the very same try. -/
def validateTokenTry (cfg : JwtConfig) (now : Nat) (t : TokenWire) : Except Err ValidatedUser :=
  match jwtVerify cfg now t with
  | Except.error _ => Except.error (Err.internal "jwt verify threw")
  | Except.ok payload =>
      if payload.type ≠ "access" then Except.error (Err.unauthorized "Invalid token type")
      else Except.ok { userId := payload.sub, walletAddress := payload.walletAddress }

/-- `validateToken(token)`: the catch-all around the try-block replaces
every thrown error — bad signature, expired, malformed, wrong type —
with the one `UnauthorizedException('Invalid token')`. -/
def validateToken (cfg : JwtConfig) (now : Nat) (t : TokenWire) : Except Err ValidatedUser :=
  match validateTokenTry cfg now t with
  | Except.error _ => Except.error (Err.unauthorized "Invalid token")
  | Except.ok v => Except.ok v

end AuthService

namespace AuthGuard

/-- `extractTokenFromHeader`: take the part after `Bearer ` when the
authorization header starts with it. -/
def extractTokenFromHeader (authHeader : Option String) : Option String :=
  match authHeader with
  | none => none
  | some h => if h.startsWith "Bearer " then some (h.drop 7) else none

/-- `canActivate`, parameterised by the wire decoding of token strings:
missing token → 401 'Access token is required'; any `validateToken`
failure is caught and rethrown as 401 'Invalid or expired token'. -/
def canActivate (decode : String → TokenWire) (cfg : JwtConfig) (now : Nat)
    (authHeader : Option String) : Except Err ValidatedUser :=
  match extractTokenFromHeader authHeader with
  | none => Except.error (Err.unauthorized "Access token is required")
  | some tokStr =>
      match AuthService.validateToken cfg now (decode tokStr) with
      | Except.error _ => Except.error (Err.unauthorized "Invalid or expired token")
      | Except.ok v => Except.ok v

end AuthGuard

end Vaultix

namespace Vaultix

/-! Helper lemmas about the store operations. -/

/-- Patching a row never touches its wallet address. -/
theorem applyPatch_walletAddress (p : UserPatch) (u : User) :
    (applyPatch p u).walletAddress = u.walletAddress := rfl

/-- Patching a row never touches its id. -/
theorem applyPatch_id (p : UserPatch) (u : User) : (applyPatch p u).id = u.id := rfl

/-- Patching a row never touches its active flag. -/
theorem applyPatch_isActive (p : UserPatch) (u : User) :
    (applyPatch p u).isActive = u.isActive := rfl

/-- Looking a wallet address up after `userRepository.update` patched the
rows of one id returns the patched image of the row the lookup would have
found before. -/
theorem findByWalletAddress_map_patch (db : DB) (w id : String) (p : UserPatch) :
    (db.users.map (fun u => if u.id == id then applyPatch p u else u)).find?
        (fun u => u.walletAddress == w)
      = (UserService.findByWalletAddress db w).map
        (fun u => if u.id == id then applyPatch p u else u) := by
  unfold UserService.findByWalletAddress
  rw [List.find?_map]
  have hcomp : ((fun u : User => u.walletAddress == w) ∘
      (fun u => if u.id == id then applyPatch p u else u)) =
      (fun u : User => u.walletAddress == w) := by
    funext u
    simp only [Function.comp_apply]
    by_cases h : (u.id == id) = true
    · rw [if_pos h]
      rfl
    · rw [if_neg h]
  rw [hcomp]

/-- The state component of `UserService.update` is the patched store,
whether or not the re-read succeeds. -/
theorem update_snd (db : DB) (id : String) (p : UserPatch) :
    (UserService.update db id p).2 =
      { db with users := db.users.map (fun u => if u.id == id then applyPatch p u else u) } := by
  simp only [UserService.update]
  split <;> rfl

/-- When some row of the targeted id is active, `UserService.update`
succeeds (its `findById` re-read finds an active row). -/
theorem update_ok_of_active (db : DB) (id : String) (p : UserPatch)
    (h : ∃ u ∈ db.users, u.id = id ∧ u.isActive = true) :
    ∃ v db1, UserService.update db id p = (Except.ok v, db1) := by
  obtain ⟨u, hu, hid, hac⟩ := h
  have hmem : (if u.id == id then applyPatch p u else u) ∈
      db.users.map (fun x => if x.id == id then applyPatch p x else x) :=
    List.mem_map_of_mem _ hu
  have hpred : ((fun x : User => x.id == id && x.isActive)
      (if u.id == id then applyPatch p u else u)) = true := by
    subst hid
    simp [applyPatch, hac]
  have hne : UserService.findById
      { db with users := db.users.map (fun x => if x.id == id then applyPatch p x else x) } id
      ≠ none := by
    unfold UserService.findById
    intro hcon
    exact (List.find?_eq_none.mp hcon _ hmem) hpred
  obtain ⟨v, hv⟩ := Option.ne_none_iff_exists'.mp hne
  refine ⟨v, { db with users := db.users.map (fun x => if x.id == id then applyPatch p x else x) }, ?_⟩
  simp only [UserService.update]
  rw [hv]

/-- After `invalidateRefreshToken t`, no active row with token value `t`
remains, so `findRefreshToken t` comes back empty. -/
theorem findRefreshToken_invalidate (db : DB) (t : String) :
    UserService.findRefreshToken (UserService.invalidateRefreshToken db t) t = none := by
  unfold UserService.findRefreshToken UserService.invalidateRefreshToken
  rw [List.find?_eq_none]
  intro x hx
  obtain ⟨r, _, rfl⟩ := List.mem_map.mp hx
  by_cases h : (r.token == t) = true
  · rw [if_pos h]
    simp
  · rw [if_neg h]
    simp only [Bool.and_eq_true]
    intro hcon
    exact h hcon.1

/-- Invalidating the same token twice is the same as doing it once. -/
theorem invalidateRefreshToken_idem (db : DB) (t : String) :
    UserService.invalidateRefreshToken (UserService.invalidateRefreshToken db t) t
      = UserService.invalidateRefreshToken db t := by
  unfold UserService.invalidateRefreshToken
  simp only [List.map_map]
  have hff : ((fun r : RefreshToken => if r.token == t then { r with isActive := false } else r) ∘
      (fun r : RefreshToken => if r.token == t then { r with isActive := false } else r)) =
      (fun r : RefreshToken => if r.token == t then { r with isActive := false } else r) := by
    funext r
    simp only [Function.comp_apply]
    by_cases h : (r.token == t) = true
    · rw [if_pos h, if_pos h]
    · rw [if_neg h, if_neg h]
  rw [hff]

/-! Concrete fixtures used by witnesses and counterexamples. -/

/-- The JWT configuration the module builds when `JWT_SECRET` is unset. -/
def cfg0 : JwtConfig := authModuleJwtConfig none

/-- A signature primitive that accepts everything (models a correctly
signed request). -/
def cryptoYes : Crypto := ⟨fun _ _ _ => some true⟩

/-- A signature primitive that rejects everything. -/
def cryptoNo : Crypto := ⟨fun _ _ _ => some false⟩

/-- One active user with a pending nonce. -/
def dbActive : DB :=
  { users := [⟨"u1", "W", some "n1", true, 0⟩], refreshTokens := [] }

/-- One soft-deactivated user that still has a pending nonce. -/
def dbInactivePending : DB :=
  { users := [⟨"u1", "W", some "n1", false, 0⟩], refreshTokens := [] }

/-- An empty store. -/
def dbEmpty : DB := { users := [], refreshTokens := [] }

/-- One active refresh token whose expiry is exactly the probe instant
used by the boundary counterexample. -/
def dbBoundary : DB :=
  { users := [⟨"u1", "W", none, true, 0⟩], refreshTokens := [⟨"t1", "u1", 1000, true, 0⟩] }

/-! Claim theorems. -/

/-- C2: the access tokens actually minted through the module's JWT
configuration carry no expiry claim at all, and `validateToken` therefore
accepts them at every later instant — here stated for every secret
setting, issuance time and (arbitrarily late) validation time.  This
contradicts the documented 15-minute expiry. -/
theorem claim_C2_access_token_never_expires (s : Option String) (uid w : String)
    (now now2 : Nat) :
    (AuthService.generateAccessToken (authModuleJwtConfig s) now uid w).exp = none ∧
    AuthService.validateToken (authModuleJwtConfig s) now2
        (TokenWire.jwt (AuthService.generateAccessToken (authModuleJwtConfig s) now uid w))
      = Except.ok { userId := uid, walletAddress := w } := by
  constructor
  · rfl
  · simp [AuthService.validateToken, AuthService.validateTokenTry, jwtVerify,
      AuthService.generateAccessToken, jwtSign, authModuleJwtConfig]

/-- C5 counterexample: a refresh token whose expiry timestamp equals the
current instant is accepted, not rejected — the code checks
`expiresAt < now` strictly. -/
theorem claim_C5_counterexample :
    (AuthService.refreshAccessToken cfg0 1000 "t2" dbBoundary "t1").1
      = Except.ok (AuthService.generateAccessToken cfg0 1000 "u1" "W", "t2") := by
  rfl

/-- C5 (amended): `refreshAccessToken` fails with Unauthorized (leaving
the store untouched) whenever the presented token is unknown or inactive
(no active row carries its value) or its expiry timestamp is strictly
before the current time; a token whose expiry equals the current instant
passes the expiry check. -/
theorem claim_C5_reject_unknown_inactive_expired (cfg : JwtConfig) (now : Nat)
    (ftok : String) (db : DB) (t : String)
    (h : UserService.findRefreshToken db t = none ∨
      ∃ tok, UserService.findRefreshToken db t = some tok ∧ tok.expiresAt < now) :
    AuthService.refreshAccessToken cfg now ftok db t
      = (Except.error (Err.unauthorized "Invalid or expired refresh token"), db) := by
  rcases h with h | ⟨tok, htok, hlt⟩
  · simp [AuthService.refreshAccessToken, h]
  · simp [AuthService.refreshAccessToken, htok, hlt]

/-- C5 witness: a concrete expired token (expiry 1000, probed at 2000)
is rejected. -/
theorem claim_C5_reject_witness :
    AuthService.refreshAccessToken cfg0 2000 "t2" dbBoundary "t1"
      = (Except.error (Err.unauthorized "Invalid or expired refresh token"), dbBoundary) :=
  claim_C5_reject_unknown_inactive_expired cfg0 2000 "t2" dbBoundary "t1"
    (Or.inr ⟨⟨"t1", "u1", 1000, true, 0⟩, by decide, by decide⟩)

/-- C10: `getCurrentUser` answers the same Unauthorized error whenever no
active row carries the requested id — both when the id is absent and when
every row carrying it is soft-deactivated, because `findById` filters on
`isActive: true`. -/
theorem claim_C10_inactive_indistinguishable (db : DB) (uid : String)
    (h : db.users.all (fun u => !(u.id == uid) || !u.isActive) = true) :
    AuthService.getCurrentUser db uid = Except.error (Err.unauthorized "User not found") := by
  unfold AuthService.getCurrentUser
  have hnone : UserService.findById db uid = none := by
    unfold UserService.findById
    rw [List.find?_eq_none]
    intro x hx
    have hx' := List.all_eq_true.mp h x hx
    simp only [Bool.or_eq_true, Bool.not_eq_true'] at hx'
    simp only [Bool.and_eq_true, not_and]
    intro hid
    rcases hx' with h1 | h2
    · exact absurd hid (by simp [h1])
    · simp [h2]
  rw [hnone]

/-- C10 witness: a store holding only a soft-deactivated user with id
`u1` answers Unauthorized for `u1`, exactly as for a missing id. -/
theorem claim_C10_witness :
    AuthService.getCurrentUser
        { users := [⟨"u1", "W", none, false, 0⟩], refreshTokens := [] } "u1"
      = Except.error (Err.unauthorized "User not found") :=
  claim_C10_inactive_indistinguishable
    { users := [⟨"u1", "W", none, false, 0⟩], refreshTokens := [] } "u1" (by decide)

/-- C8: `logout` always succeeds, afterwards every stored row carrying
the presented token value is inactive (also when there was none, or it
already was inactive), and a repeated `logout` of the same value changes
nothing more — idempotence. -/
theorem claim_C8_logout_idempotent_fail_soft (db : DB) (t : String) :
    (AuthService.logout db t).1 = Except.ok () ∧
    ((AuthService.logout db t).2.refreshTokens.all
        (fun r => !(r.token == t) || !r.isActive)) = true ∧
    AuthService.logout (AuthService.logout db t).2 t = AuthService.logout db t := by
  refine ⟨rfl, ?_, ?_⟩
  · rw [List.all_eq_true]
    intro x hx
    simp only [AuthService.logout, UserService.invalidateRefreshToken] at hx
    obtain ⟨r, _, rfl⟩ := List.mem_map.mp hx
    by_cases h : r.token == t <;> simp [h]
  · simp only [AuthService.logout]
    rw [invalidateRefreshToken_idem]

end Vaultix

namespace Vaultix

/-- C6: a validly signed, unexpired token whose type claim differs from
"access" is rejected with the same `Unauthorized('Invalid token')` as
every other failure: the only error `validateToken` ever surfaces is that
one (the guard in turn collapses everything it receives into either the
missing-token message or `Invalid or expired token`). -/
theorem claim_C6_single_invalid_outcome :
    (∀ (cfg : JwtConfig) (now : Nat) (j : Jwt), j.secret = cfg.secret →
      (∀ e, j.exp = some e → now < e) → j.payload.type ≠ "access" →
      AuthService.validateToken cfg now (TokenWire.jwt j)
        = Except.error (Err.unauthorized "Invalid token")) ∧
    (∀ (cfg : JwtConfig) (now : Nat) (t : TokenWire) (e : Err),
      AuthService.validateToken cfg now t = Except.error e →
      e = Err.unauthorized "Invalid token") ∧
    (∀ (decode : String → TokenWire) (cfg : JwtConfig) (now : Nat)
        (header : Option String) (e : Err),
      AuthGuard.canActivate decode cfg now header = Except.error e →
      e = Err.unauthorized "Access token is required" ∨
        e = Err.unauthorized "Invalid or expired token") := by
  refine ⟨?_, ?_, ?_⟩
  · intro cfg now j hs hexp htype
    cases he : j.exp with
    | none =>
        simp [AuthService.validateToken, AuthService.validateTokenTry, jwtVerify, hs, he, htype]
    | some e =>
        have hlt := hexp e he
        simp [AuthService.validateToken, AuthService.validateTokenTry, jwtVerify, hs, he, htype,
          show ¬ e ≤ now by omega]
  · intro cfg now t e h
    simp only [AuthService.validateToken] at h
    split at h
    · simp only [Except.error.injEq] at h
      exact h.symm
    · simp at h
  · intro decode cfg now header e h
    simp only [AuthGuard.canActivate] at h
    split at h
    · simp only [Except.error.injEq] at h
      exact Or.inl h.symm
    · split at h
      · simp only [Except.error.injEq] at h
        exact Or.inr h.symm
      · simp at h

/-- A validly signed, unexpired token of type "refresh". -/
def jWrongType : Jwt :=
  { payload := { sub := "u1", walletAddress := "W", type := "refresh" }
    iat := 0, exp := some 100, secret := cfg0.secret }

/-- C6 witness: the concrete wrong-type token above, probed at time 0
under the concrete module configuration, is answered with the generic
Invalid-token error. -/
theorem claim_C6_witness :
    AuthService.validateToken cfg0 0 (TokenWire.jwt jWrongType)
      = Except.error (Err.unauthorized "Invalid token") :=
  claim_C6_single_invalid_outcome.1 cfg0 0 jWrongType rfl
    (by
      intro e he
      simp only [jWrongType, Option.some.injEq] at he
      omega)
    (by decide)

/-- C4: one successful `refreshAccessToken` call leaves no active row
with the presented token value (the newly minted token value being
different), so every later `refreshAccessToken` with the same value —
under any configuration, clock and fresh randomness — answers
Unauthorized and leaves the store unchanged. -/
theorem claim_C4_refresh_token_single_use (cfg : JwtConfig) (now : Nat) (ftok : String)
    (db : DB) (t : String) (out : Jwt × String) (db2 : DB)
    (cfg2 : JwtConfig) (now2 : Nat) (ftok2 : String)
    (hfresh : ftok ≠ t)
    (h : AuthService.refreshAccessToken cfg now ftok db t = (Except.ok out, db2)) :
    UserService.findRefreshToken db2 t = none ∧
    AuthService.refreshAccessToken cfg2 now2 ftok2 db2 t
      = (Except.error (Err.unauthorized "Invalid or expired refresh token"), db2) := by
  simp only [AuthService.refreshAccessToken, AuthService.generateRefreshToken,
    UserService.createRefreshToken] at h
  split at h
  · simp at h
  next tok heq =>
    split at h
    · simp at h
    next hexp =>
      split at h
      · simp at h
      next owner hjoin =>
        rw [Prod.ext_iff] at h
        obtain ⟨-, hdb⟩ := h
        subst hdb
        have hnone : UserService.findRefreshToken
            { UserService.invalidateRefreshToken db t with
              refreshTokens := (UserService.invalidateRefreshToken db t).refreshTokens ++
                [⟨ftok, owner.id, now + AuthService.sevenDaysMs, true, now⟩] } t = none := by
          unfold UserService.findRefreshToken
          rw [List.find?_append]
          have h1 := findRefreshToken_invalidate db t
          unfold UserService.findRefreshToken at h1
          rw [h1]
          have h2 : (ftok == t) = false := beq_eq_false_iff_ne.mpr hfresh
          simp [List.find?, h2]
        refine ⟨hnone, ?_⟩
        simp [AuthService.refreshAccessToken, hnone]

/-- One active refresh token `t1` for an active user, as it stands before
the first refresh. -/
def dbTok : DB :=
  { users := [⟨"u1", "W", none, true, 0⟩], refreshTokens := [⟨"t1", "u1", 100, true, 0⟩] }

/-- The store after `refreshAccessToken` consumed `t1` at time 50 and
minted `t2`. -/
def dbTokAfter : DB :=
  { users := [⟨"u1", "W", none, true, 0⟩]
    refreshTokens := [⟨"t1", "u1", 100, false, 0⟩,
      ⟨"t2", "u1", 50 + AuthService.sevenDaysMs, true, 50⟩] }

/-- C4 witness: a concrete successful refresh of `t1`, after which a
second refresh of `t1` is answered Unauthorized. -/
theorem claim_C4_witness :
    UserService.findRefreshToken dbTokAfter "t1" = none ∧
    AuthService.refreshAccessToken cfg0 60 "t3" dbTokAfter "t1"
      = (Except.error (Err.unauthorized "Invalid or expired refresh token"), dbTokAfter) :=
  claim_C4_refresh_token_single_use cfg0 50 "t2" dbTok "t1"
    (AuthService.generateAccessToken cfg0 50 "u1" "W", "t2") dbTokAfter
    cfg0 60 "t3" (by decide) (by rfl)

/-- C9: whenever `verifySignature` fails with Unauthorized — which is
exactly what happens for a missing user or nonce, a signature the
verifier rejects or errors on, and an identity mismatch — the store is
returned untouched: the nonce stays as it was and no refresh token has
been persisted. -/
theorem claim_C9_unauthorized_preserves_state (c : Crypto) (cfg : JwtConfig) (now : Nat)
    (ftok : String) (db : DB) (w sig pk m : String)
    (h : (AuthService.verifySignature c cfg now ftok db w sig pk).1
        = Except.error (Err.unauthorized m)) :
    (AuthService.verifySignature c cfg now ftok db w sig pk).2 = db := by
  cases hfind : UserService.findByWalletAddress db w with
  | none => simp [AuthService.verifySignature, hfind]
  | some user =>
    cases hn : user.nonce with
    | none => simp [AuthService.verifySignature, hfind, hn]
    | some n =>
      by_cases hne : (n == "") = true
      · simp [AuthService.verifySignature, hfind, hn, hne]
      · cases hv : c.verifyResult pk (challengeMessage n) sig with
        | none => simp [AuthService.verifySignature, hfind, hn, hne, hv]
        | some b =>
          cases b with
          | false => simp [AuthService.verifySignature, hfind, hn, hne, hv]
          | true =>
            by_cases hpk : pk ≠ w
            · simp [AuthService.verifySignature, hfind, hn, hne, hv, hpk]
            · rcases hupd : UserService.update db user.id { nonce := some none } with ⟨res, db1⟩
              cases res with
              | error e =>
                have he : e = Err.internal "User not found" := by
                  simp only [UserService.update] at hupd
                  split at hupd
                  · rw [Prod.ext_iff] at hupd
                    simp only [Except.error.injEq] at hupd
                    exact hupd.1.symm
                  · simp at hupd
                subst he
                simp [AuthService.verifySignature, hfind, hn, hne, hv, hpk, hupd] at h
              | ok v =>
                simp [AuthService.verifySignature, AuthService.generateRefreshToken,
                  UserService.createRefreshToken, hfind, hn, hne, hv, hpk, hupd] at h

/-- C9 witness: for an unknown wallet address the call fails Unauthorized
and the (empty) store comes back unchanged. -/
theorem claim_C9_witness :
    (AuthService.verifySignature cryptoYes cfg0 0 "rt" dbEmpty "W" "sig" "W").2 = dbEmpty :=
  claim_C9_unauthorized_preserves_state cryptoYes cfg0 0 "rt" dbEmpty "W" "sig" "W"
    "Invalid challenge. Please request a new one." (by rfl)

end Vaultix

namespace Vaultix

/-- A successful `verifySignature` found a user at the wallet address and
left the user table patched by the nonce-clearing update on that user's
id. -/
theorem verifySignature_ok_users (c : Crypto) (cfg : JwtConfig) (now : Nat) (ftok : String)
    (db : DB) (w sig pk : String) (out : Jwt × String) (db2 : DB)
    (h : AuthService.verifySignature c cfg now ftok db w sig pk = (Except.ok out, db2)) :
    ∃ user, UserService.findByWalletAddress db w = some user ∧
      db2.users = db.users.map
        (fun u => if u.id == user.id then applyPatch { nonce := some none } u else u) := by
  simp only [AuthService.verifySignature, AuthService.generateRefreshToken,
    UserService.createRefreshToken] at h
  split at h
  · simp at h
  next user hfind =>
    refine ⟨user, hfind, ?_⟩
    split at h
    · simp at h
    next n hn =>
      split at h
      · simp at h
      next hne =>
        split at h
        next hv =>
          split at h
          · simp at h
          next hpk =>
            split at h
            next e db1 hupd => simp at h
            next v db1 hupd =>
              rw [Prod.ext_iff] at h
              obtain ⟨-, hdb⟩ := h
              dsimp only at hdb
              have h3 := update_snd db user.id { nonce := some none }
              rw [hupd] at h3
              dsimp only at h3
              rw [← hdb, h3]
        next hv => simp at h

/-- C1: after a successful `verifySignature`, the stored nonce of the
wallet's user is `none`, and therefore a second `verifySignature` for the
same wallet — with the same signature and public key, under any
configuration, clock and randomness — fails Unauthorized with the
missing-challenge message. -/
theorem claim_C1_nonce_cleared_no_replay (c : Crypto) (cfg : JwtConfig) (now : Nat)
    (ftok : String) (db : DB) (w sig pk : String) (out : Jwt × String) (db2 : DB)
    (c2 : Crypto) (cfg2 : JwtConfig) (now2 : Nat) (ftok2 : String)
    (h : AuthService.verifySignature c cfg now ftok db w sig pk = (Except.ok out, db2)) :
    (∃ u, UserService.findByWalletAddress db2 w = some u ∧ u.nonce = none) ∧
    (AuthService.verifySignature c2 cfg2 now2 ftok2 db2 w sig pk).1
      = Except.error (Err.unauthorized "Invalid challenge. Please request a new one.") := by
  obtain ⟨user, hfind, husers⟩ := verifySignature_ok_users c cfg now ftok db w sig pk out db2 h
  have hfind2 : UserService.findByWalletAddress db2 w
      = some (applyPatch { nonce := some none } user) := by
    unfold UserService.findByWalletAddress
    rw [husers]
    have := findByWalletAddress_map_patch db w user.id { nonce := some none }
    rw [this, hfind]
    simp
  refine ⟨⟨_, hfind2, rfl⟩, ?_⟩
  simp [AuthService.verifySignature, hfind2, applyPatch]

/-- The store after the concrete successful verification of `dbActive`'s
challenge: nonce cleared, one refresh token persisted. -/
def dbAfterVerify : DB :=
  { users := [⟨"u1", "W", none, true, 0⟩]
    refreshTokens := [⟨"rt1", "u1", 0 + AuthService.sevenDaysMs, true, 0⟩] }

/-- C1 witness: a concrete successful verification against `dbActive`,
after which the nonce is gone and the very same call is answered 401. -/
theorem claim_C1_witness :
    (∃ u, UserService.findByWalletAddress dbAfterVerify "W" = some u ∧ u.nonce = none) ∧
    (AuthService.verifySignature cryptoYes cfg0 1 "rt2" dbAfterVerify "W" "sig" "W").1
      = Except.error (Err.unauthorized "Invalid challenge. Please request a new one.") :=
  claim_C1_nonce_cleared_no_replay cryptoYes cfg0 0 "rt1" dbActive "W" "sig" "W"
    (AuthService.generateAccessToken cfg0 0 "u1" "W", "rt1") dbAfterVerify
    cryptoYes cfg0 1 "rt2" (by rfl)

end Vaultix

namespace Vaultix

/-- After a successful `generateChallenge` with nonce `n`, the wallet's
user record carries exactly `n` as its pending nonce — covering both the
create path (unseen wallet) and the update path (overwrite of whatever
nonce was stored before). -/
theorem generateChallenge_ok_nonce (n uid : String) (now : Nat) (db : DB) (w : String)
    (out : String × String) (db' : DB)
    (h : AuthService.generateChallenge n uid now db w = (Except.ok out, db')) :
    ∃ u, UserService.findByWalletAddress db' w = some u ∧ u.nonce = some n := by
  simp only [AuthService.generateChallenge, UserService.create] at h
  split at h
  next hfind =>
    rw [Prod.ext_iff] at h
    obtain ⟨-, hdb⟩ := h
    dsimp only at hdb
    refine ⟨⟨uid, w, some n, true, now⟩, ?_, rfl⟩
    rw [← hdb]
    unfold UserService.findByWalletAddress at hfind ⊢
    dsimp only
    rw [List.find?_append, hfind]
    simp [List.find?]
  next user hfind =>
    split at h
    next e db1 hupd => simp at h
    next v db1 hupd =>
      rw [Prod.ext_iff] at h
      obtain ⟨-, hdb⟩ := h
      dsimp only at hdb
      have h3 := update_snd db user.id { nonce := some (some n) }
      rw [hupd] at h3
      dsimp only at h3
      refine ⟨applyPatch { nonce := some (some n) } user, ?_, rfl⟩
      rw [← hdb, h3]
      unfold UserService.findByWalletAddress
      dsimp only
      rw [findByWalletAddress_map_patch db w user.id { nonce := some (some n) }, hfind]
      simp

/-- C7: `generateChallenge` overwrites the stored nonce, so after two
successive successful challenges the wallet's record carries the second
nonce, and a signature that was valid for the first challenge message but
is not valid for the second fails `verifySignature`. -/
theorem claim_C7_second_challenge_invalidates_first (n1 uid1 n2 uid2 : String)
    (now1 now2 : Nat) (db : DB) (w : String) (out1 : String × String) (db1 : DB)
    (out2 : String × String) (db2 : DB) (c : Crypto) (cfg : JwtConfig) (now3 : Nat)
    (ftok sig pk : String)
    (h1 : AuthService.generateChallenge n1 uid1 now1 db w = (Except.ok out1, db1))
    (h2 : AuthService.generateChallenge n2 uid2 now2 db1 w = (Except.ok out2, db2))
    (hsig1 : c.verifyResult pk (challengeMessage n1) sig = some true)
    (hsig2 : c.verifyResult pk (challengeMessage n2) sig ≠ some true) :
    (∃ u, UserService.findByWalletAddress db2 w = some u ∧ u.nonce = some n2) ∧
    (AuthService.verifySignature c cfg now3 ftok db2 w sig pk).1.isOk = false := by
  obtain ⟨u2, hfind2, hn2⟩ := generateChallenge_ok_nonce n2 uid2 now2 db1 w out2 db2 h2
  refine ⟨⟨u2, hfind2, hn2⟩, ?_⟩
  by_cases hne : (n2 == "") = true
  · simp [AuthService.verifySignature, hfind2, hn2, hne, Except.isOk, Except.toBool]
  · cases hvr : c.verifyResult pk (challengeMessage n2) sig with
    | none => simp [AuthService.verifySignature, hfind2, hn2, hne, hvr, Except.isOk, Except.toBool]
    | some b =>
      cases b with
      | false => simp [AuthService.verifySignature, hfind2, hn2, hne, hvr, Except.isOk, Except.toBool]
      | true => exact absurd hvr hsig2

/-- A verifier that accepts a signature exactly over the first concrete
challenge message. -/
def cryptoFirst : Crypto := ⟨fun _ m _ => some (m == challengeMessage "n1")⟩

/-- The store after the first concrete challenge created the user. -/
def dbChal1 : DB := { users := [⟨"u1", "W", some "n1", true, 0⟩], refreshTokens := [] }

/-- The store after the second concrete challenge overwrote the nonce. -/
def dbChal2 : DB := { users := [⟨"u1", "W", some "n2", true, 0⟩], refreshTokens := [] }

/-- C7 witness: two concrete challenges for wallet `W`; the stored nonce
is the second one and the signature valid only over the first message is
rejected. -/
theorem claim_C7_witness :
    (∃ u, UserService.findByWalletAddress dbChal2 "W" = some u ∧ u.nonce = some "n2") ∧
    (AuthService.verifySignature cryptoFirst cfg0 2 "rt" dbChal2 "W" "sig" "W").1.isOk
      = false :=
  claim_C7_second_challenge_invalidates_first "n1" "u1" "n2" "u2" 0 1 dbEmpty "W"
    ("n1", challengeMessage "n1") dbChal1 ("n2", challengeMessage "n2") dbChal2
    cryptoFirst cfg0 2 "rt" "sig" "W" (by rfl) (by rfl) (by decide) (by decide)

end Vaultix

namespace Vaultix

/-- C3 counterexample: a soft-deactivated user with a pending nonce, a
signature the verifier accepts and a public key equal to the wallet
address — every condition of the claim holds, yet `verifySignature` does
not return tokens and does not fail with Unauthorized: the nonce-clearing
`update` throws a plain `Error('User not found')` because its re-read
filters on `isActive: true`. -/
theorem claim_C3_counterexample :
    UserService.findByWalletAddress dbInactivePending "W"
        = some ⟨"u1", "W", some "n1", false, 0⟩ ∧
    cryptoYes.verifyResult "W" (challengeMessage "n1") "sig" = some true ∧
    (AuthService.verifySignature cryptoYes cfg0 0 "rt" dbInactivePending "W" "sig" "W").1
      = Except.error (Err.internal "User not found") :=
  ⟨by decide, rfl, by rfl⟩

/-- C3 (amended): over stores in which the user found at the wallet
address (if any) is active, `verifySignature` returns the token pair if
and only if that user exists with a pending (nonempty) nonce, the
verifier accepts the signature over the message rebuilt from that nonce
under the supplied public key, and the public key equals the wallet
address; in every other such case it fails with an Unauthorized error.
(Without the activity restriction the equivalence is false — see the
counterexample.) -/
theorem claim_C3_verify_iff_active (c : Crypto) (cfg : JwtConfig) (now : Nat) (ftok : String)
    (db : DB) (w sig pk : String)
    (hact : ∀ u, UserService.findByWalletAddress db w = some u → u.isActive = true) :
    ((AuthService.verifySignature c cfg now ftok db w sig pk).1.isOk = true ↔
      ∃ u n, UserService.findByWalletAddress db w = some u ∧ u.nonce = some n ∧
        (n == "") = false ∧ c.verifyResult pk (challengeMessage n) sig = some true ∧
        pk = w) ∧
    (∀ e, (AuthService.verifySignature c cfg now ftok db w sig pk).1 = Except.error e →
      ∃ m, e = Err.unauthorized m) := by
  cases hfind : UserService.findByWalletAddress db w with
  | none =>
    constructor
    · simp [AuthService.verifySignature, hfind, Except.isOk, Except.toBool]
    · intro e he
      simp [AuthService.verifySignature, hfind] at he
      first
      | exact ⟨_, he⟩
      | exact ⟨_, he.symm⟩
  | some user =>
    have hu := hact user hfind
    cases hn : user.nonce with
    | none =>
      constructor
      · simp [AuthService.verifySignature, hfind, hn, Except.isOk, Except.toBool]
      · intro e he
        simp [AuthService.verifySignature, hfind, hn] at he
        first
        | exact ⟨_, he⟩
        | exact ⟨_, he.symm⟩
    | some n =>
      by_cases hne : (n == "") = true
      · constructor
        · have heq : n = "" := by simpa using hne
          simp [AuthService.verifySignature, hfind, hn, hne, Except.isOk, Except.toBool]
          intro hcon
          exact absurd heq hcon
        · intro e he
          simp [AuthService.verifySignature, hfind, hn, hne] at he
          first
          | exact ⟨_, he⟩
          | exact ⟨_, he.symm⟩
      · have hnf : (n == "") = false := by
          revert hne
          cases (n == "") <;> simp
        cases hvr : c.verifyResult pk (challengeMessage n) sig with
        | none =>
          constructor
          · simp [AuthService.verifySignature, hfind, hn, hne, hvr, Except.isOk, Except.toBool]
          · intro e he
            simp [AuthService.verifySignature, hfind, hn, hne, hvr] at he
            first
            | exact ⟨_, he⟩
            | exact ⟨_, he.symm⟩
        | some b =>
          cases b with
          | false =>
            constructor
            · simp [AuthService.verifySignature, hfind, hn, hne, hvr, Except.isOk,
                Except.toBool]
            · intro e he
              simp [AuthService.verifySignature, hfind, hn, hne, hvr] at he
              first
              | exact ⟨_, he⟩
              | exact ⟨_, he.symm⟩
          | true =>
            by_cases hpk : pk = w
            · have hfind' : db.users.find? (fun u => u.walletAddress == w) = some user := hfind
              have hmem : user ∈ db.users := List.mem_of_find?_eq_some hfind'
              obtain ⟨v, db1, hupd⟩ :=
                update_ok_of_active db user.id { nonce := some none } ⟨user, hmem, rfl, hu⟩
              subst hpk
              have hok : (AuthService.verifySignature c cfg now ftok db pk sig pk).1.isOk
                  = true := by
                simp [AuthService.verifySignature, AuthService.generateRefreshToken,
                  UserService.createRefreshToken, hfind, hn, hne, hvr, hupd,
                  Except.isOk, Except.toBool]
              constructor
              · exact ⟨fun _ => ⟨user, n, rfl, hn, hnf, hvr, rfl⟩, fun _ => hok⟩
              · intro e he
                rw [he] at hok
                simp [Except.isOk, Except.toBool] at hok
            · constructor
              · simp [AuthService.verifySignature, hfind, hn, hne, hvr, hpk, Except.isOk,
                  Except.toBool]
              · intro e he
                simp [AuthService.verifySignature, hfind, hn, hne, hvr, hpk] at he
                first
                | exact ⟨_, he⟩
                | exact ⟨_, he.symm⟩

/-- C3 witness: the amended equivalence applied to the concrete active
store, where both sides of the equivalence are inhabited. -/
theorem claim_C3_witness :
    ((AuthService.verifySignature cryptoYes cfg0 0 "rt1" dbActive "W" "sig" "W").1.isOk
        = true ↔
      ∃ u n, UserService.findByWalletAddress dbActive "W" = some u ∧ u.nonce = some n ∧
        (n == "") = false ∧ cryptoYes.verifyResult "W" (challengeMessage n) "sig" = some true ∧
        ("W" : String) = "W") ∧
    (∀ e, (AuthService.verifySignature cryptoYes cfg0 0 "rt1" dbActive "W" "sig" "W").1
        = Except.error e → ∃ m, e = Err.unauthorized m) :=
  claim_C3_verify_iff_active cryptoYes cfg0 0 "rt1" dbActive "W" "sig" "W"
    (by
      intro u hu
      have h0 : UserService.findByWalletAddress dbActive "W"
          = some ⟨"u1", "W", some "n1", true, 0⟩ := by decide
      rw [h0] at hu
      injection hu with h1
      rw [← h1])

end Vaultix
